import Mathlib

/-!
Verification of the Codolio scraper service (`src/app.py`).

The development shallowly embeds the extraction logic and the HTTP
handlers: DOM reads become pure functions over an explicit DOM model,
browser effects (navigation, selector waits, per-lookup failures) become
injected outcomes, exceptions become `Except`, and Python dicts become
ordered association lists (`JValue.obj`).
-/

namespace Codolio

/-! ## Character classes (Python / JS semantics, ASCII fragment) -/

/-- Python `str.strip()` / JS `trim()` whitespace (ASCII fragment). -/
def pyIsSpace (c : Char) : Bool :=
  c = ' ' || c = '\t' || c = '\n' || c = '\r' || c = Char.ofNat 11 || c = Char.ofNat 12

/-- The regex class `\s` (ASCII fragment), as used by Python `re`. -/
def reIsSpace (c : Char) : Bool := pyIsSpace c

/-- The regex word-character class `\w` (ASCII fragment): letters, digits, underscore. -/
def isWordChar (c : Char) : Bool :=
  c.isAlpha || c.isDigit || c = '_'

/-- ASCII lower-casing of a single character, as in JS `toLowerCase` /
Python `re.IGNORECASE` on ASCII input. -/
def lowerChar (c : Char) : Char := c.toLower

/-- Lower-case a character list. -/
def lowerStr (cs : List Char) : List Char := cs.map lowerChar

/-- Python `str.strip()` / JS `String.prototype.trim()`. -/
def pyStrip (cs : List Char) : List Char :=
  ((cs.dropWhile pyIsSpace).reverse.dropWhile pyIsSpace).reverse

/-- Replace ` ` (non-breaking space) by a plain space, as in the
`replace(/ /g, ' ')` step of the page scripts. -/
def nbspToSpace (cs : List Char) : List Char :=
  cs.map (fun c => if c = Char.ofNat 160 then ' ' else c)

/-! ## Substring search (JS `indexOf`, containment) -/

/-- Does `cs` start with `pat` (case-sensitive)? -/
def leadsWith : List Char → List Char → Bool
  | [], _ => true
  | _ :: _, [] => false
  | p :: ps, c :: cs => p = c && leadsWith ps cs

/-- JS `hay.indexOf(pat)`: index of the leftmost occurrence, or `none`. -/
def strIndexOf (pat : List Char) : List Char → Option Nat
  | [] => if pat = [] then some 0 else none
  | c :: cs =>
    if leadsWith pat (c :: cs) then some 0
    else (strIndexOf pat cs).map (· + 1)

/-- Case-sensitive substring containment. -/
def containsStr (hay pat : List Char) : Bool :=
  (strIndexOf pat hay).isSome

/-- Case-insensitive substring containment (Playwright `get_by_text`
with `exact=False`, and the JS `toLowerCase().indexOf` idiom). -/
def containsCI (hay pat : List Char) : Bool :=
  containsStr (lowerStr hay) (lowerStr pat)

/-! ## Regex `(\d+(?:,\d+)*)` (first match, capture) -/

mutual
/-- Continue a digit run: inside `\d+` or after `,\d` of `(?:,\d+)*`.
`acc` holds the match so far, reversed. -/
def numScanB (acc : List Char) : List Char → List Char
  | [] => acc
  | c :: rest =>
    if c.isDigit then numScanB (c :: acc) rest
    else if c = ',' then numScanC acc rest
    else acc

/-- Just consumed a candidate `,`: it joins the match only when a digit
follows (the `(?:,\d+)*` group), else the match ends before it. -/
def numScanC (acc : List Char) : List Char → List Char
  | [] => acc
  | c :: rest => if c.isDigit then numScanB (c :: ',' :: acc) rest else acc
end

/-- Leftmost match of `(\d+(?:,\d+)*)` in `cs`, commas preserved
(the capture used by `get_number_after_text`'s page script). -/
def firstNumMatch : List Char → Option (List Char)
  | [] => none
  | c :: rest =>
    if c.isDigit then some (numScanB [c] rest).reverse
    else firstNumMatch rest

/-! ## Regex `>\s*(\d+)\s*submissions\b` with `re.IGNORECASE` -/

/-- Drop `pat` from the head of `cs`, comparing case-insensitively;
`none` when `cs` does not start with `pat`. -/
def dropCI : List Char → List Char → Option (List Char)
  | [], cs => some cs
  | _ :: _, [] => none
  | p :: ps, c :: cs =>
    if lowerChar p = lowerChar c then dropCI ps cs else none

/-- The part of the pattern `>\s*(\d+)\s*submissions\b` after the `>`:
`\s*` then the captured `\d+` then `\s*` then `submissions`
(case-insensitive) then a word boundary. -/
def matchSubBody (rest : List Char) : Option (List Char) :=
  let rest1 := rest.dropWhile reIsSpace
  let ds := rest1.takeWhile Char.isDigit
  if ds = [] then none
  else
    let rest2 := (rest1.dropWhile Char.isDigit).dropWhile reIsSpace
    match dropCI "submissions".data rest2 with
    | none => none
    | some rest3 =>
      match rest3 with
      | [] => some ds
      | c :: _ => if isWordChar c then none else some ds

/-- Try the pattern `>\s*(\d+)\s*submissions\b` anchored at the head of
`cs`; on success return the captured digit group. -/
def matchSubAt (cs : List Char) : Option (List Char) :=
  match cs with
  | '>' :: rest => matchSubBody rest
  | _ => none

/-- `re.search(r">\s*(\d+)\s*submissions\b", html, re.IGNORECASE)`:
capture of the leftmost match, or `none`. -/
def findSubmissionsNumber : List Char → Option (List Char)
  | [] => none
  | c :: rest =>
    match matchSubAt (c :: rest) with
    | some ds => some ds
    | none => findSubmissionsNumber rest

/-! ## Regex `\b(\d{3,5})\b` with the global flag -/

/-- Maximal digit runs of `cs` with their neighbouring characters:
`(previous char, run, next char)`, `none` at the ends of the string.
`prev` is the character just before `cur.reverse ++ rest`; `cur` is the
reversed digit run being accumulated. -/
def digitRunsAux (prev : Option Char) (cur : List Char) :
    List Char → List (Option Char × List Char × Option Char)
  | [] => if cur = [] then [] else [(prev, cur.reverse, none)]
  | c :: rest =>
    if c.isDigit then digitRunsAux prev (c :: cur) rest
    else
      if cur = [] then digitRunsAux (some c) [] rest
      else (prev, cur.reverse, some c) :: digitRunsAux (some c) [] rest

/-- All maximal digit runs with context. -/
def digitRuns (cs : List Char) : List (Option Char × List Char × Option Char) :=
  digitRunsAux none [] cs

/-- A word boundary sits between a digit of the run and `oc`. -/
def boundaryOk : Option Char → Bool
  | none => true
  | some c => !isWordChar c

/-- `text.match(/\b(\d{3,5})\b/g)`: every standalone 3–5 digit number,
in order. A match of this pattern is exactly a maximal digit run of
length 3 to 5 whose neighbours are non-word characters (or the ends). -/
def allStandalone35 (cs : List Char) : List (List Char) :=
  (digitRuns cs).filterMap fun t =>
    let (p, run, n) := t
    if boundaryOk p && boundaryOk n && decide (3 ≤ run.length) && decide (run.length ≤ 5)
    then some run else none

/-! ## DOM and page model -/

/-- A DOM element: its `class` attribute, its flattened `innerText`, and
its parent chain. `parent = none` at the document root. -/
inductive Dom where
  | node (className : String) (innerText : String) (parent : Option Dom)

def Dom.className : Dom → String
  | .node c _ _ => c

def Dom.innerText : Dom → String
  | .node _ t _ => t

def Dom.parent : Dom → Option Dom
  | .node _ _ p => p

/-- JS `el.closest('[class*="MuiCard"]')`: the nearest ancestor-or-self
whose class attribute contains `"MuiCard"` (case-sensitive). -/
def Dom.closestMuiCard : Dom → Option Dom
  | .node c t p =>
    if containsStr c.data "MuiCard".data then some (.node c t p)
    else
      match p with
      | none => none
      | some q => q.closestMuiCard

/-- The container both page scripts work in:
`el.closest('[class*="MuiCard"]') || el.parentElement || el`. -/
def Dom.searchRoot (el : Dom) : Dom :=
  match el.closestMuiCard with
  | some r => r
  | none =>
    match el.parent with
    | some q => q
    | none => el

/-- The rendered page as the extractor sees it: elements in DOM order
(for `page.get_by_text`), the raw markup (for `page.content()`), and
injected per-call browser failures — `gnatFail label = some msg` means
the browser op inside `get_number_after_text(label)` raises `msg`, and
likewise `ratingFail` for `extract_rating` and `contentFail` for
`page.content()`. -/
structure PageModel where
  nodes : List Dom
  html : String
  gnatFail : String → Option String
  ratingFail : String → Option String
  contentFail : Option String
  extractFail : Option String

/-- `page.get_by_text(label, exact=False).first`: the first element in
DOM order whose text contains `label`, case-insensitively. -/
def findByText (nodes : List Dom) (label : String) : Option Dom :=
  nodes.find? fun n => containsCI n.innerText.data label.data

/-! ## JSON-style values (Python dicts in insertion order) -/

/-- The subset of JSON the service emits: `null`, strings, booleans and
ordered objects. -/
inductive JValue where
  | null
  | str (s : String)
  | obj (fields : List (String × JValue))

/-- Key lookup in an association list of JSON fields. -/
def jLookup (fields : List (String × JValue)) (k : String) : Option JValue :=
  match fields with
  | [] => none
  | (k', v) :: rest => if k' = k then some v else jLookup rest k

/-- Lookup of a key in an object value. -/
def JValue.getKey : JValue → String → Option JValue
  | .obj fields, k => jLookup fields k
  | _, _ => none

/-- The keys of an object value, in insertion order. -/
def JValue.keys : JValue → List String
  | .obj fields => fields.map Prod.fst
  | _ => []

def JValue.isNull : JValue → Bool
  | .null => true
  | _ => false

def JValue.asStr : JValue → Option String
  | .str s => some s
  | _ => none

/-- A Python `Optional[str]` stored into a dict and serialized. -/
def jOfOpt : Option String → JValue
  | none => .null
  | some s => .str s

/-! ## The field extractors (`src/app.py` lines 68–98 and 127–143) -/

/-- Body of the page script of `get_number_after_text`, applied to the
matched element `el` and the label:
scope to `searchRoot`, normalize NBSP and trim, find the label
case-insensitively, take the first `\d+(?:,\d+)*` match at or after it,
else fall back to the first such match anywhere, else `null`. -/
def jsNumberAfterText (el : Dom) (label : String) : Option String :=
  let text := pyStrip (nbspToSpace el.searchRoot.innerText.data)
  let fb := (firstNumMatch text).map String.mk
  match strIndexOf (lowerStr label.data) (lowerStr text) with
  | some idx =>
    match firstNumMatch (text.drop idx) with
    | some m => some (String.mk m)
    | none => fb
  | none => fb

/-- `get_number_after_text(label)` without its `try/except`: locate the
first element containing `label`, return `None` when there is none,
else run the page script; a raised browser error propagates. -/
def get_number_after_text_body (page : PageModel) (label : String) :
    Except String (Option String) :=
  match page.gnatFail label with
  | some msg => .error msg
  | none =>
    match findByText page.nodes label with
    | none => .ok none
    | some el => .ok (jsNumberAfterText el label)

/-- `get_number_after_text(label)`: the body under `try: ... except:
return None`. -/
def get_number_after_text (page : PageModel) (label : String) : Option String :=
  match get_number_after_text_body page label with
  | .error _ => none
  | .ok v => v

/-- `find_number_by_regex` at its sole call site, pattern
`r">\s*(\d+)\s*submissions\b"`: search the page markup, return the
captured group of the leftmost match; any failure (including
`page.content()`) is swallowed to `None`. -/
def find_number_by_regex_submissions (page : PageModel) : Option String :=
  match page.contentFail with
  | some _ => none
  | none => (findSubmissionsNumber page.html.data).map String.mk

/-- Body of the page script of `extract_rating`: scope to `searchRoot`,
normalize NBSP (no trim), collect all standalone 3–5 digit numbers and
return the last, else `null`. -/
def jsLastRating (el : Dom) : Option String :=
  let text := nbspToSpace el.searchRoot.innerText.data
  ((allStandalone35 text).getLast?).map String.mk

/-- `extract_rating(site_label)` without its `try/except`. -/
def extract_rating_body (page : PageModel) (siteLabel : String) :
    Except String (Option String) :=
  match page.ratingFail siteLabel with
  | some msg => .error msg
  | none =>
    match findByText page.nodes siteLabel with
    | none => .ok none
    | some el => .ok (jsLastRating el)

/-- `extract_rating(site_label)`: the body under `try: ... except:
return None`. -/
def extract_rating (page : PageModel) (siteLabel : String) : Option String :=
  match extract_rating_body page siteLabel with
  | .error _ => none
  | .ok v => v

/-! ## Data assembly (`src/app.py` lines 64, 100–151) -/

/-- Python `val or "0"`: `None` and the empty string are falsy. -/
def pyOrZero : Option String → String
  | none => "0"
  | some s => if s = "" then "0" else s

/-- Python `if rating:` on an `Optional[str]`. -/
def pyTruthy : Option String → Option String
  | none => none
  | some s => if s = "" then none else some s

/-- The `problem_categories` table, in source order. -/
def problem_categories : List (String × String) :=
  [("Fundamentals", "fundamentals"), ("DSA", "dsa"), ("Easy", "easy"),
   ("Medium", "medium"), ("Hard", "hard"),
   ("Competitive Programming", "competitive_programming"),
   ("Codechef", "codechef"), ("Codeforces", "codeforces"),
   ("HackerRank", "hackerrank")]

/-- The `basicStats` dict, fields in assignment order. -/
def basicStatsOf (page : PageModel) : List (String × JValue) :=
  [("total_questions", jOfOpt (get_number_after_text page "Total Questions")),
   ("total_active_days", jOfOpt (get_number_after_text page "Total Active Days")),
   ("total_submissions", jOfOpt (find_number_by_regex_submissions page)),
   ("max_streak", jOfOpt (get_number_after_text page "Max.Streak")),
   ("current_streak", jOfOpt (get_number_after_text page "Current.Streak")),
   ("total_contests", jOfOpt (get_number_after_text page "Total Contests")),
   ("awards", jOfOpt (get_number_after_text page "Awards"))]

/-- The `problemsSolved` dict: `data["problemsSolved"][key] = val or "0"`. -/
def problemsSolvedOf (page : PageModel) : List (String × JValue) :=
  problem_categories.map fun lk =>
    (lk.2, .str (pyOrZero (get_number_after_text page lk.1)))

/-- The `contestRankings` dict: a site key is inserted only when its
rating is truthy, with value `{"rating": r}`. -/
def contestRankingsOf (page : PageModel) : List (String × JValue) :=
  (match pyTruthy (extract_rating page "LeetCode") with
   | some r => [("leetcode", JValue.obj [("rating", .str r)])]
   | none => []) ++
  (match pyTruthy (extract_rating page "CodeChef") with
   | some r => [("codechef", JValue.obj [("rating", .str r)])]
   | none => [])

/-- The `data` dict returned on the success path of `scrape_codolio`. -/
def extractData (page : PageModel) : JValue :=
  .obj [("basicStats", .obj (basicStatsOf page)),
        ("problemsSolved", .obj (problemsSolvedOf page)),
        ("contestRankings", .obj (contestRankingsOf page))]

/-! ## The scrape pipeline (`src/app.py` lines 24–158) -/

/-- Observable browser-driver actions, in order of occurrence. -/
inductive Event where
  | browserLaunch
  | navigate (url : String)
  | waitSelector (sel : String)
  | browserClose
deriving DecidableEq

/-- Outcome of the page-load phase (lines 49–62): `page.goto` and
`page.wait_for_selector` each either succeed, raise `PWTimeout`, or
raise some other exception. -/
inductive LoadResult where
  | navTimeout
  | navError (msg : String)
  | selTimeout
  | selError (msg : String)
  | ok
deriving DecidableEq

/-- An `HTTPException(status_code, detail)`. -/
structure HTTPError where
  status : Nat
  detail : String
deriving DecidableEq

/-- `https://codolio.com/profile/{username}/problemSolving`. -/
def profileUrl (username : String) : String :=
  "https://codolio.com/profile/" ++ username ++ "/problemSolving"

/-- The landmark selector waited for before extraction. -/
def landmarkSelector : String := "text=Total Questions"

/-- `scrape_codolio(username)`: launch, navigate, wait for the landmark,
extract; every exceptional path closes the browser and raises an
`HTTPException`, the success path closes it and returns the data. The
first component records the browser-driver actions performed. -/
def scrape_codolio (username : String) (load : LoadResult) (page : PageModel) :
    List Event × Except HTTPError JValue :=
  let url := profileUrl username
  match load with
  | .navTimeout =>
    ([.browserLaunch, .navigate url, .browserClose],
     .error ⟨504, "Timeout loading profile for " ++ username⟩)
  | .navError msg =>
    ([.browserLaunch, .navigate url, .browserClose],
     .error ⟨500, "Failed to load profile: " ++ msg⟩)
  | .selTimeout =>
    ([.browserLaunch, .navigate url, .waitSelector landmarkSelector, .browserClose],
     .error ⟨504, "Timeout loading profile for " ++ username⟩)
  | .selError msg =>
    ([.browserLaunch, .navigate url, .waitSelector landmarkSelector, .browserClose],
     .error ⟨500, "Failed to load profile: " ++ msg⟩)
  | .ok =>
    match page.extractFail with
    | some msg =>
      ([.browserLaunch, .navigate url, .waitSelector landmarkSelector, .browserClose],
       .error ⟨500, "Error extracting data: " ++ msg⟩)
    | none =>
      ([.browserLaunch, .navigate url, .waitSelector landmarkSelector, .browserClose],
       .ok (extractData page))

/-! ## HTTP handlers (`src/app.py` lines 181–216) -/

/-- The success envelope `{"success": ..., "username": ..., "data": ...}`. -/
structure Envelope where
  success : Bool
  username : String
  data : JValue

/-- `not username or len(username.strip()) == 0`. -/
def usernameEmpty (u : String) : Bool :=
  u.data.isEmpty || (pyStrip u.data).isEmpty

/-- `GET /codolio/{username}`: reject empty usernames with 400 before
any browser work, else scrape the trimmed username and wrap the data;
an `HTTPException` from the scraper is re-raised unchanged. -/
def get_codolio_profile (username : String) (load : LoadResult)
    (page : PageModel) : List Event × Except HTTPError Envelope :=
  if usernameEmpty username then
    ([], .error ⟨400, "Username cannot be empty"⟩)
  else
    match scrape_codolio (String.mk (pyStrip username.data)) load page with
    | (ev, .error e) => (ev, .error e)
    | (ev, .ok d) => (ev, .ok ⟨true, username, d⟩)

/-- `POST /codolio` with body `{"username": ...}`: same semantics as the
GET route, reading the username from the request body. -/
def post_codolio_profile (username : String) (load : LoadResult)
    (page : PageModel) : List Event × Except HTTPError Envelope :=
  if usernameEmpty username then
    ([], .error ⟨400, "Username cannot be empty"⟩)
  else
    match scrape_codolio (String.mk (pyStrip username.data)) load page with
    | (ev, .error e) => (ev, .error e)
    | (ev, .ok d) => (ev, .ok ⟨true, username, d⟩)

/-! ## Projections and page constructions used by the statements -/

/-- Status code of an error result. -/
def errStatus {α : Type} : Except HTTPError α → Option Nat
  | .error e => some e.status
  | .ok _ => none

/-- Detail message of an error result. -/
def errDetail {α : Type} : Except HTTPError α → Option String
  | .error e => some e.detail
  | .ok _ => none

/-- Number of `browserClose` actions in a trace. -/
def closeCount : List Event → Nat
  | [] => 0
  | .browserClose :: rest => closeCount rest + 1
  | _ :: rest => closeCount rest

/-- Inject a browser failure into the `get_number_after_text` lookup for
label `L` (the `try` body raises `msg` there). -/
def withGnatFailure (page : PageModel) (L msg : String) : PageModel :=
  { page with gnatFail := fun l => if l = L then some msg else page.gnatFail l }

/-- Inject a browser failure into the `extract_rating` lookup for site
label `L`. -/
def withRatingFailure (page : PageModel) (L msg : String) : PageModel :=
  { page with ratingFail := fun l => if l = L then some msg else page.ratingFail l }

/-- A page with the given DOM nodes and markup and no injected browser
failures. -/
def simplePage (nodes : List Dom) (html : String) : PageModel :=
  ⟨nodes, html, fun _ => none, fun _ => none, none, none⟩

/-- A landmark-bearing page whose only stat card is "Total Questions":
the "Awards" label (among others) is nowhere in the DOM. -/
def pageTotalOnly : PageModel :=
  simplePage [Dom.node "MuiCard-root" "Total Questions 500" none] ""

/-- A minimal page with no nodes and empty markup. -/
def pageBlank : PageModel := simplePage [] ""

/-- Markup that contains "87 submissions" with no preceding `>`. -/
def pageSubsBare : PageModel := simplePage [] "87 submissions"

/-- Markup whose submissions counter sits at the start of an element's
text (mixed case, to exercise `re.IGNORECASE`). -/
def pageSubsElem : PageModel := simplePage [] "<div>87 SubMissions</div>"

/-- Markup whose submissions counter sits at the start of an element's
text, all lower-case. -/
def pageSubsPlain : PageModel := simplePage [] "<div>87 submissions</div>"

/-- A stat label inside a MuiCard container whose text carries a
comma-grouped number after the label. -/
def pageCardComma : PageModel :=
  simplePage
    [Dom.node "stat-label" "Total Questions"
      (some (Dom.node "MuiCard-root stats" "Total Questions 1,234" none))] ""

/-- A stat label whose container is the immediate parent (no MuiCard
ancestor anywhere). -/
def pageParentScope : PageModel :=
  simplePage
    [Dom.node "stat-label" "Total Questions"
      (some (Dom.node "plain-box" "Total Questions 42" none))] ""

/-- A card whose only number appears before the label, forcing the
anywhere-in-container fallback. -/
def pageFallback : PageModel :=
  simplePage
    [Dom.node "stat-label" "Total Questions"
      (some (Dom.node "MuiCard-root" "500 Total Questions" none))] ""

/-- A LeetCode contest card carrying several standalone 3–5 digit
numbers; the last one is 2001. -/
def pageLeetCard : PageModel :=
  simplePage
    [Dom.node "site" "LeetCode"
      (some (Dom.node "MuiCard-q" "LeetCode Rating 1850 Rank 12345 Peak 2001" none))] ""

/-- A LeetCode node whose container text has no standalone 3–5 digit
number. -/
def pageLeetNoNum : PageModel :=
  simplePage [Dom.node "site" "LeetCode Contest 42" none] ""

/-! ## Supporting lemmas -/

theorem leadsWith_refl (cs : List Char) : leadsWith cs cs = true := by
  induction cs with
  | nil => rfl
  | cons c rest ih => simp [leadsWith, ih]

theorem strIndexOf_append_self (a b : List Char) :
    (strIndexOf b (a ++ b)).isSome = true := by
  induction a with
  | nil =>
    cases b with
    | nil => simp [strIndexOf]
    | cons c cs => simp [strIndexOf, leadsWith_refl]
  | cons x a' ih =>
    simp only [List.cons_append, strIndexOf]
    split
    · rfl
    · simpa using ih

theorem containsStr_append_self (a b : List Char) :
    containsStr (a ++ b) b = true := by
  simpa [containsStr] using strIndexOf_append_self a b

theorem reIsSpace_cases {c : Char} (h : reIsSpace c = true) :
    c = ' ' ∨ c = '\t' ∨ c = '\n' ∨ c = '\r' ∨
      c = Char.ofNat 11 ∨ c = Char.ofNat 12 := by
  have h' := h
  simp only [reIsSpace, pyIsSpace, Bool.or_eq_true, decide_eq_true_eq] at h'
  tauto

theorem space_not_digit {c : Char} (h : reIsSpace c = true) :
    c.isDigit = false := by
  rcases reIsSpace_cases h with h | h | h | h | h | h <;> subst h <;> decide

theorem digit_not_space {c : Char} (h : c.isDigit = true) :
    reIsSpace c = false := by
  by_contra hc
  rw [Bool.not_eq_false] at hc
  rw [space_not_digit hc] at h
  exact Bool.false_ne_true h

theorem dropWhile_all_append {p : Char → Bool} (ws rest : List Char)
    (h : ∀ c ∈ ws, p c = true) :
    List.dropWhile p (ws ++ rest) = List.dropWhile p rest := by
  induction ws with
  | nil => rfl
  | cons c ws' ih =>
    have hc : p c = true := h c (by simp)
    simp only [List.cons_append, List.dropWhile_cons, hc, if_true]
    exact ih fun x hx => h x (by simp [hx])

theorem dropWhile_cons_neg {p : Char → Bool} {c : Char} (rest : List Char)
    (h : p c = false) : List.dropWhile p (c :: rest) = c :: rest := by
  simp [List.dropWhile_cons, h]

theorem takeWhile_all_append {p : Char → Bool} (ds rest : List Char)
    (h : ∀ c ∈ ds, p c = true) :
    List.takeWhile p (ds ++ rest) = ds ++ List.takeWhile p rest := by
  induction ds with
  | nil => rfl
  | cons c ds' ih =>
    have hc : p c = true := h c (by simp)
    simp only [List.cons_append, List.takeWhile_cons, hc, if_true]
    simp [ih fun x hx => h x (by simp [hx])]

theorem takeWhile_cons_neg {p : Char → Bool} {c : Char} (rest : List Char)
    (h : p c = false) : List.takeWhile p (c :: rest) = [] := by
  simp [List.takeWhile_cons, h]

theorem dropCI_append_self (pat rest : List Char) :
    dropCI pat (pat ++ rest) = some rest := by
  induction pat with
  | nil => rfl
  | cons p ps ih => simp [dropCI, ih]

theorem pyStrip_of_all_space {cs : List Char}
    (h : ∀ c ∈ cs, pyIsSpace c = true) : pyStrip cs = [] := by
  unfold pyStrip
  have h1 : List.dropWhile pyIsSpace cs = [] := by
    rw [List.dropWhile_eq_nil_iff]
    exact h
  simp [h1]

/-- The number scanners only extend their accumulator to the left, with
digit or comma characters. -/
theorem numScan_ext (cs : List Char) : ∀ acc : List Char,
    (∃ ext, numScanB acc cs = ext ++ acc ∧ ∀ c ∈ ext, c.isDigit = true ∨ c = ',') ∧
    (∃ ext, numScanC acc cs = ext ++ acc ∧ ∀ c ∈ ext, c.isDigit = true ∨ c = ',') := by
  induction cs with
  | nil =>
    intro acc
    exact ⟨⟨[], by simp [numScanB]⟩, ⟨[], by simp [numScanC]⟩⟩
  | cons c rest ih =>
    intro acc
    constructor
    · by_cases hd : c.isDigit = true
      · obtain ⟨ext, hB, hmem⟩ := (ih (c :: acc)).1
        refine ⟨ext ++ [c], ?_, ?_⟩
        · simp [numScanB, hd, hB]
        · intro x hx
          rcases List.mem_append.mp hx with hx | hx
          · exact hmem x hx
          · simp only [List.mem_singleton] at hx; subst hx; exact Or.inl hd
      · by_cases hcomma : c = ','
        · obtain ⟨ext, hC, hmem⟩ := (ih acc).2
          exact ⟨ext, by simp [numScanB, hd, hcomma, hC], hmem⟩
        · exact ⟨[], by simp [numScanB, hd, hcomma]⟩
    · by_cases hd : c.isDigit = true
      · obtain ⟨ext, hB, hmem⟩ := (ih (c :: ',' :: acc)).1
        refine ⟨ext ++ [c, ','], ?_, ?_⟩
        · simp [numScanC, hd, hB]
        · intro x hx
          rcases List.mem_append.mp hx with hx | hx
          · exact hmem x hx
          · rcases List.mem_cons.mp hx with hx | hx
            · exact Or.inl (hx ▸ hd)
            · simp only [List.mem_singleton] at hx; exact Or.inr hx
      · exact ⟨[], by simp [numScanC, hd]⟩

/-- Shape of a `(\d+(?:,\d+)*)` match: it starts with a digit and
consists of digits and commas only. -/
theorem firstNumMatch_shape {cs m : List Char} (h : firstNumMatch cs = some m) :
    ∃ c m', m = c :: m' ∧ c.isDigit = true ∧
      ∀ x ∈ m, x.isDigit = true ∨ x = ',' := by
  induction cs with
  | nil => simp [firstNumMatch] at h
  | cons c rest ih =>
    by_cases hd : c.isDigit = true
    · simp only [firstNumMatch, hd, if_true, Option.some_inj] at h
      obtain ⟨ext, hB, hmem⟩ := (numScan_ext rest [c]).1
      rw [hB] at h
      refine ⟨c, ext.reverse, ?_, hd, ?_⟩
      · simpa using h.symm
      · intro x hx
        rw [← h] at hx
        simp only [List.mem_reverse, List.mem_append, List.mem_singleton] at hx
        rcases hx with hx | hx
        · exact hmem x hx
        · exact Or.inl (hx ▸ hd)
    · simp only [firstNumMatch, hd, if_false] at h
      exact ih h

/-- A successful `matchSubBody` captures a nonempty run of digits. -/
theorem matchSubBody_shape {rest t : List Char} (h : matchSubBody rest = some t) :
    t ≠ [] ∧ ∀ c ∈ t, c.isDigit = true := by
  unfold matchSubBody at h
  simp only at h
  split at h
  · exact absurd h (by simp)
  · rename_i hne
    split at h
    · exact absurd h (by simp)
    · rename_i rest3 hdrop
      split at h
      · simp only [Option.some_inj] at h
        subst h
        exact ⟨hne, fun c hc => List.mem_takeWhile_imp hc⟩
      · rename_i c rest4
        split at h
        · exact absurd h (by simp)
        · simp only [Option.some_inj] at h
          subst h
          exact ⟨hne, fun c hc => List.mem_takeWhile_imp hc⟩

/-- A successful `matchSubAt` captures a nonempty run of digits. -/
theorem matchSubAt_shape {cs t : List Char} (h : matchSubAt cs = some t) :
    t ≠ [] ∧ ∀ c ∈ t, c.isDigit = true := by
  unfold matchSubAt at h
  split at h
  case h_1 rest => exact matchSubBody_shape h
  case h_2 => exact absurd h (by simp)

/-- `matchSubAt` fails immediately unless the text starts with `>`. -/
theorem matchSubAt_ne_gt {c : Char} {rest : List Char} (h : c ≠ '>') :
    matchSubAt (c :: rest) = none := by
  unfold matchSubAt
  split
  · rename_i heq
    injection heq with h1 _
    exact absurd h1 h
  · rfl

/-- `matchSubBody` succeeds on `\s* digits \s* "submissions" boundary`,
capturing exactly the digit group. -/
theorem matchSubBody_at (ws1 ds ws2 post : List Char)
    (hws1 : ∀ c ∈ ws1, reIsSpace c = true)
    (hws2 : ∀ c ∈ ws2, reIsSpace c = true)
    (hne : ds ≠ []) (hdig : ∀ c ∈ ds, c.isDigit = true)
    (hpost : post = [] ∨ ∃ c rest, post = c :: rest ∧ isWordChar c = false) :
    matchSubBody (ws1 ++ (ds ++ (ws2 ++ ("submissions".data ++ post)))) = some ds := by
  have hsubs : "submissions".data ++ post = 's' :: ("ubmissions".data ++ post) := rfl
  have hYdigit : List.takeWhile Char.isDigit (ws2 ++ ("submissions".data ++ post)) = [] := by
    cases ws2 with
    | nil =>
      rw [List.nil_append, hsubs]
      exact takeWhile_cons_neg _ (by decide)
    | cons w ws2' =>
      rw [List.cons_append]
      exact takeWhile_cons_neg _ (space_not_digit (hws2 w (by simp)))
  have hYdrop : List.dropWhile Char.isDigit (ws2 ++ ("submissions".data ++ post)) =
      ws2 ++ ("submissions".data ++ post) := by
    cases ws2 with
    | nil =>
      rw [List.nil_append, hsubs]
      exact dropWhile_cons_neg _ (by decide)
    | cons w ws2' =>
      rw [List.cons_append]
      rw [dropWhile_cons_neg _ (space_not_digit (hws2 w (by simp)))]
  obtain ⟨d, ds', rfl⟩ := List.exists_cons_of_ne_nil hne
  have hd : d.isDigit = true := hdig d (by simp)
  have e1 : List.dropWhile reIsSpace
      (ws1 ++ ((d :: ds') ++ (ws2 ++ ("submissions".data ++ post)))) =
      (d :: ds') ++ (ws2 ++ ("submissions".data ++ post)) := by
    rw [dropWhile_all_append ws1 _ hws1, List.cons_append]
    exact dropWhile_cons_neg _ (digit_not_space hd)
  have e2 : List.takeWhile Char.isDigit
      ((d :: ds') ++ (ws2 ++ ("submissions".data ++ post))) = d :: ds' := by
    rw [takeWhile_all_append _ _ hdig, hYdigit, List.append_nil]
  have e3 : List.dropWhile Char.isDigit
      ((d :: ds') ++ (ws2 ++ ("submissions".data ++ post))) =
      ws2 ++ ("submissions".data ++ post) := by
    rw [dropWhile_all_append _ _ hdig, hYdrop]
  have e4 : List.dropWhile reIsSpace (ws2 ++ ("submissions".data ++ post)) =
      "submissions".data ++ post := by
    rw [dropWhile_all_append ws2 _ hws2, hsubs]
    exact dropWhile_cons_neg _ (by decide)
  unfold matchSubBody
  simp only [e1, e2, e3, e4, dropCI_append_self]
  rcases hpost with rfl | ⟨c, rest, rfl, hw⟩
  · simp
  · simp [hw]

/-- If no `>` occurs in `pre`, the leftmost pattern match found after
`pre` is the one anchored at the head of `tgt`. -/
theorem findSubs_after_pre (pre : List Char) {tgt ds : List Char}
    (hpre : '>' ∉ pre) (h : matchSubAt tgt = some ds) :
    findSubmissionsNumber (pre ++ tgt) = some ds := by
  induction pre with
  | nil =>
    cases tgt with
    | nil => simp [matchSubAt] at h
    | cons c rest =>
      rw [List.nil_append]
      unfold findSubmissionsNumber
      rw [h]
  | cons x pre' ih =>
    have hx : x ≠ '>' := fun hc => hpre (by simp [hc])
    rw [List.cons_append]
    unfold findSubmissionsNumber
    rw [matchSubAt_ne_gt hx]
    exact ih fun hc => hpre (by simp [hc])

/-- Any capture returned by the submissions search is a nonempty digit
run. -/
theorem findSubs_shape {cs t : List Char}
    (h : findSubmissionsNumber cs = some t) :
    t ≠ [] ∧ ∀ c ∈ t, c.isDigit = true := by
  induction cs with
  | nil => simp [findSubmissionsNumber] at h
  | cons c rest ih =>
    unfold findSubmissionsNumber at h
    split at h
    · rename_i ds hds
      simp only [Option.some_inj] at h
      subst h
      exact matchSubAt_shape hds
    · exact ih h

/-- Every run reported by `digitRunsAux` consists of digits, provided
the accumulator does. -/
theorem digitRunsAux_digits (cs : List Char) : ∀ (prev : Option Char) (cur : List Char),
    (∀ c ∈ cur, c.isDigit = true) →
    ∀ t ∈ digitRunsAux prev cur cs, ∀ c ∈ t.2.1, c.isDigit = true := by
  induction cs with
  | nil =>
    intro prev cur hcur t ht c hc
    unfold digitRunsAux at ht
    split at ht
    · simp at ht
    · simp only [List.mem_singleton] at ht
      subst ht
      simp only [List.mem_reverse] at hc
      exact hcur c hc
  | cons x rest ih =>
    intro prev cur hcur t ht c hc
    unfold digitRunsAux at ht
    by_cases hx : x.isDigit = true
    · rw [if_pos hx] at ht
      refine ih prev (x :: cur) ?_ t ht c hc
      intro y hy
      rcases List.mem_cons.mp hy with rfl | hy
      · exact hx
      · exact hcur y hy
    · rw [if_neg hx] at ht
      by_cases hnil : cur = []
      · rw [if_pos hnil] at ht
        exact ih (some x) [] (by simp) t ht c hc
      · rw [if_neg hnil] at ht
        rcases List.mem_cons.mp ht with rfl | ht
        · simp only [List.mem_reverse] at hc
          exact hcur c hc
        · exact ih (some x) [] (by simp) t ht c hc

/-- Every standalone 3–5 digit match has length 3 to 5 and consists of
digits. -/
theorem allStandalone35_mem {cs m : List Char} (h : m ∈ allStandalone35 cs) :
    3 ≤ m.length ∧ m.length ≤ 5 ∧ ∀ c ∈ m, c.isDigit = true := by
  unfold allStandalone35 at h
  obtain ⟨t, ht, hf⟩ := List.mem_filterMap.mp h
  obtain ⟨p, run, n⟩ := t
  simp only at hf
  split at hf
  · rename_i hguard
    simp only [Option.some_inj] at hf
    subst hf
    simp only [Bool.and_eq_true, decide_eq_true_eq] at hguard
    refine ⟨hguard.1.2, hguard.2, ?_⟩
    exact digitRunsAux_digits cs none [] (by simp) (p, run, n) ht
  · exact absurd hf (by simp)

/-- Membership from `getLast?`. -/
theorem mem_of_getLast_opt {α : Type} {l : List α} {a : α}
    (h : l.getLast? = some a) : a ∈ l := by
  rw [List.getLast?_eq_some_iff] at h
  obtain ⟨l', rfl⟩ := h
  simp

/-! ## Claim theorems -/

/-- C1: the claim says every `basicStats` key is a digit-string or
`"0"`, never null. The code stores the raw `Optional` lookup result:
on a 200-path page whose DOM has a "Total Questions" card but no
"Awards" node, the returned `basicStats.awards` is present but `null`
(while `total_questions` is `"500"`), contradicting the claim. -/
theorem claim_C1 :
    ∃ d, (scrape_codolio "SambhavSurthi" LoadResult.ok pageTotalOnly).2 = Except.ok d
      ∧ (d.getKey "basicStats").bind (fun v => v.getKey "awards") = some JValue.null
      ∧ ((d.getKey "basicStats").bind (fun v => v.getKey "total_questions")).bind
          JValue.asStr = some "500" :=
  ⟨extractData pageTotalOnly, rfl, rfl, by decide⟩

/-- C3: on every exit path of `scrape_codolio` — success, navigation or
landmark timeout, any other load or extraction failure — the browser is
closed exactly once, the close is the last browser action before the
result propagates, and a timeout yields a 504. -/
theorem claim_C3 (username : String) (load : LoadResult) (page : PageModel) :
    closeCount (scrape_codolio username load page).1 = 1
    ∧ (scrape_codolio username load page).1.getLast? = some Event.browserClose
    ∧ errStatus (scrape_codolio username LoadResult.navTimeout page).2 = some 504
    ∧ errStatus (scrape_codolio username LoadResult.selTimeout page).2 = some 504 := by
  refine ⟨?_, ?_, rfl, rfl⟩
  · cases load <;> try rfl
    case ok =>
      rcases hp : page.extractFail with _ | msg <;>
        simp [scrape_codolio, hp, closeCount]
  · cases load <;> try rfl
    case ok =>
      rcases hp : page.extractFail with _ | msg <;>
        simp [scrape_codolio, hp]

/-- C4: a timeout while loading the page (navigation or landmark wait)
maps to HTTP 504; any other load failure maps to HTTP 500 whose detail
contains the underlying message. -/
theorem claim_C4 (username msg : String) (page : PageModel) :
    errStatus (scrape_codolio username LoadResult.navTimeout page).2 = some 504
    ∧ errStatus (scrape_codolio username LoadResult.selTimeout page).2 = some 504
    ∧ errStatus (scrape_codolio username (LoadResult.navError msg) page).2 = some 500
    ∧ errDetail (scrape_codolio username (LoadResult.navError msg) page).2
        = some ("Failed to load profile: " ++ msg)
    ∧ errStatus (scrape_codolio username (LoadResult.selError msg) page).2 = some 500
    ∧ errDetail (scrape_codolio username (LoadResult.selError msg) page).2
        = some ("Failed to load profile: " ++ msg)
    ∧ containsStr ("Failed to load profile: " ++ msg).data msg.data = true := by
  refine ⟨rfl, rfl, rfl, rfl, rfl, rfl, ?_⟩
  rw [String.data_append]
  exact containsStr_append_self _ _

/-- C5: an empty or whitespace-only username is rejected with HTTP 400
on both routes, with an empty browser-action trace — the extractor is
never invoked. -/
theorem claim_C5 (u : String) (load : LoadResult) (page : PageModel)
    (h : ∀ c ∈ u.data, pyIsSpace c = true) :
    get_codolio_profile u load page
      = ([], Except.error ⟨400, "Username cannot be empty"⟩)
    ∧ post_codolio_profile u load page
      = ([], Except.error ⟨400, "Username cannot be empty"⟩) := by
  have he : usernameEmpty u = true := by
    unfold usernameEmpty
    rw [pyStrip_of_all_space h]
    simp
  exact ⟨by simp [get_codolio_profile, he], by simp [post_codolio_profile, he]⟩

/-- C5 witness: the blank-ish username `"  "` is rejected on the GET
route with 400 and no browser actions. -/
theorem claim_C5_witness :
    get_codolio_profile "  " LoadResult.ok pageBlank
      = ([], Except.error ⟨400, "Username cannot be empty"⟩) :=
  (claim_C5 "  " LoadResult.ok pageBlank (by decide)).1

/-- C9 counterexample: a successful extraction returns data with no
`heatmap` and no `dsaTopics` key at all — this source revision never
builds them. -/
theorem claim_C9_counterexample :
    ∃ d, (scrape_codolio "SambhavSurthi" LoadResult.ok pageCardComma).2 = Except.ok d
      ∧ d.getKey "heatmap" = none ∧ d.getKey "dsaTopics" = none :=
  ⟨extractData pageCardComma, rfl, rfl, rfl⟩

/-- C9 (amended): every extraction result has exactly the keys
`basicStats`, `problemsSolved` and `contestRankings`; `heatmap` and
`dsaTopics` are never produced (and their absence never fails the
extraction, which is total). -/
theorem claim_C9 (page : PageModel) :
    (extractData page).keys = ["basicStats", "problemsSolved", "contestRankings"]
    ∧ (extractData page).getKey "heatmap" = none
    ∧ (extractData page).getKey "dsaTopics" = none :=
  ⟨rfl, rfl, rfl⟩

/-- C2 counterexample: markup containing the numeric token `87`
immediately followed by the word "submissions" but with no preceding
`>` does NOT set `total_submissions` to `"87"` — the regex
`>\s*(\d+)\s*submissions\b` requires a `>` before the number, so the
field comes out `null`. -/
theorem claim_C2_counterexample :
    find_number_by_regex_submissions pageSubsBare = none
    ∧ ((extractData pageSubsBare).getKey "basicStats").bind
        (fun v => v.getKey "total_submissions") = some JValue.null :=
  ⟨by decide, rfl⟩

/-- C2 (amended): the numeric token must additionally be preceded by a
`>` (after optional whitespace), i.e. sit at the start of an element's
text. When the markup contains `> ws digits ws submissions` at a word
boundary and no `>` occurs earlier, `total_submissions` is set to
exactly that digit token; and markup containing
`<div>87 SubMissions</div>` resolves to `"87"` (case-insensitively). -/
theorem claim_C2 (page : PageModel) (pre ws1 ds ws2 post : List Char)
    (hfail : page.contentFail = none)
    (hhtml : page.html.data
      = pre ++ '>' :: (ws1 ++ (ds ++ (ws2 ++ ("submissions".data ++ post)))))
    (hpre : '>' ∉ pre)
    (hws1 : ∀ c ∈ ws1, reIsSpace c = true)
    (hws2 : ∀ c ∈ ws2, reIsSpace c = true)
    (hne : ds ≠ []) (hdig : ∀ c ∈ ds, c.isDigit = true)
    (hpost : post = [] ∨ ∃ c rest, post = c :: rest ∧ isWordChar c = false) :
    find_number_by_regex_submissions page = some (String.mk ds)
    ∧ ((extractData page).getKey "basicStats").bind
        (fun v => v.getKey "total_submissions")
        = some (JValue.str (String.mk ds))
    ∧ find_number_by_regex_submissions pageSubsElem = some "87" := by
  have hfind : find_number_by_regex_submissions page = some (String.mk ds) := by
    unfold find_number_by_regex_submissions
    rw [hfail]
    have hm : matchSubAt ('>' :: (ws1 ++ (ds ++ (ws2 ++ ("submissions".data ++ post)))))
        = some ds :=
      matchSubBody_at ws1 ds ws2 post hws1 hws2 hne hdig hpost
    rw [hhtml, findSubs_after_pre pre hpre hm]
    rfl
  refine ⟨hfind, ?_, by decide⟩
  have step1 : ((extractData page).getKey "basicStats").bind
      (fun v => v.getKey "total_submissions")
      = some (jOfOpt (find_number_by_regex_submissions page)) := rfl
  rw [step1, hfind]
  rfl

/-- C2 witness: the amended claim at the concrete markup
`<div>87 submissions</div>`. -/
theorem claim_C2_witness :
    find_number_by_regex_submissions pageSubsPlain = some (String.mk ['8', '7']) :=
  (claim_C2 pageSubsPlain "<div".data [] ['8', '7'] [' '] "</div>".data
    rfl (by decide) (by decide) (by decide) (by decide) (by decide) (by decide)
    (Or.inr ⟨'<', "/div>".data, rfl, by decide⟩)).1

/-- C6: a failure raised inside a single-field lookup is swallowed
there and replaced by the sentinel (`None` from the lookup, hence `"0"`
for a `problemsSolved` field), and every other field's lookup — and the
extraction as a whole — proceeds unaffected. -/
theorem claim_C6 (page : PageModel) (L msg label : String) (h : label ≠ L) :
    get_number_after_text (withGnatFailure page L msg) L = none
    ∧ get_number_after_text (withGnatFailure page L msg) label
        = get_number_after_text page label
    ∧ extract_rating (withRatingFailure page L msg) L = none
    ∧ extract_rating (withRatingFailure page L msg) label
        = extract_rating page label
    ∧ ((extractData (withGnatFailure page "Easy" msg)).getKey "problemsSolved").bind
        (fun v => v.getKey "easy") = some (JValue.str "0")
    ∧ ((extractData (withGnatFailure page L msg)).getKey "problemsSolved").map
        JValue.keys
        = some ["fundamentals", "dsa", "easy", "medium", "hard",
                "competitive_programming", "codechef", "codeforces", "hackerrank"] := by
  refine ⟨?_, ?_, ?_, ?_, ?_, rfl⟩
  · simp [get_number_after_text, get_number_after_text_body, withGnatFailure]
  · simp [get_number_after_text, get_number_after_text_body, withGnatFailure, h]
  · simp [extract_rating, extract_rating_body, withRatingFailure]
  · simp [extract_rating, extract_rating_body, withRatingFailure, h]
  · have h1 : get_number_after_text (withGnatFailure page "Easy" msg) "Easy" = none := by
      simp [get_number_after_text, get_number_after_text_body, withGnatFailure]
    have step1 : ((extractData (withGnatFailure page "Easy" msg)).getKey
        "problemsSolved").bind (fun v => v.getKey "easy")
        = some (JValue.str (pyOrZero
            (get_number_after_text (withGnatFailure page "Easy" msg) "Easy"))) := rfl
    rw [step1, h1]
    rfl

/-- C6 witness: a failing "Awards" lookup yields the sentinel while the
"Total Questions" lookup is unchanged. -/
theorem claim_C6_witness :
    get_number_after_text (withGnatFailure pageBlank "Awards" "boom") "Awards" = none
    ∧ get_number_after_text (withGnatFailure pageBlank "Awards" "boom")
        "Total Questions"
        = get_number_after_text pageBlank "Total Questions" :=
  ⟨(claim_C6 pageBlank "Awards" "boom" "Total Questions" (by decide)).1,
   (claim_C6 pageBlank "Awards" "boom" "Total Questions" (by decide)).2.1⟩

/-- The string built from a `(\d+(?:,\d+)*)` match is nonempty, starts
with a digit, and holds only digits and commas. -/
theorem mkNum_shape {cs m : List Char} (h : firstNumMatch cs = some m) :
    String.mk m ≠ "" ∧ (∃ c cs', (String.mk m).data = c :: cs' ∧ c.isDigit = true) ∧
      ∀ c ∈ (String.mk m).data, c.isDigit = true ∨ c = ',' := by
  obtain ⟨c, m', rfl, hc, hmem⟩ := firstNumMatch_shape h
  refine ⟨?_, ⟨c, m', rfl, hc⟩, hmem⟩
  intro heq
  have := congrArg String.data heq
  simp at this

/-- Shape of any value produced by the number-after-label page script. -/
theorem jsNum_shape {el : Dom} {label : String} {s : String}
    (h : jsNumberAfterText el label = some s) :
    s ≠ "" ∧ (∃ c cs', s.data = c :: cs' ∧ c.isDigit = true) ∧
      ∀ c ∈ s.data, c.isDigit = true ∨ c = ',' := by
  unfold jsNumberAfterText at h
  simp only at h
  split at h
  · split at h
    · rename_i m hm
      simp only [Option.some_inj] at h
      subst h
      exact mkNum_shape hm
    · rename_i hm
      obtain ⟨m, hm2, rfl⟩ := Option.map_eq_some'.mp h
      exact mkNum_shape hm2
  · obtain ⟨m, hm2, rfl⟩ := Option.map_eq_some'.mp h
    exact mkNum_shape hm2

/-- C7: the label lookup returns `null` when no node's text contains
the label (case-insensitively); any value it returns is a nonempty
digit run, optionally comma-grouped with separators preserved; the
container is the nearest MuiCard ancestor (else the immediate parent),
the first digit run at or after the label's position is taken, and the
first digit run anywhere in the container is the fallback; a page with
"Total Questions" followed by "1,234" yields "1,234". -/
theorem claim_C7 (page : PageModel) (label : String) :
    ((∀ n ∈ page.nodes, containsCI n.innerText.data label.data = false) →
        get_number_after_text page label = none)
    ∧ (∀ s : String, get_number_after_text page label = some s →
        s ≠ "" ∧ (∃ c cs', s.data = c :: cs' ∧ c.isDigit = true) ∧
          ∀ c ∈ s.data, c.isDigit = true ∨ c = ',')
    ∧ get_number_after_text pageCardComma "Total Questions" = some "1,234"
    ∧ get_number_after_text pageParentScope "Total Questions" = some "42"
    ∧ get_number_after_text pageFallback "Total Questions" = some "500" := by
  refine ⟨?_, ?_, by decide, by decide, by decide⟩
  · intro h
    unfold get_number_after_text get_number_after_text_body
    have hf : findByText page.nodes label = none := by
      unfold findByText
      rw [List.find?_eq_none]
      intro n hn
      simp [h n hn]
    rcases hg : page.gnatFail label with _ | m
    · simp [hg, hf]
    · simp [hg]
  · intro s hs
    unfold get_number_after_text get_number_after_text_body at hs
    rcases hg : page.gnatFail label with _ | m <;> rw [hg] at hs
    · rcases hf : findByText page.nodes label with _ | el <;> rw [hf] at hs
      · simp at hs
      · simp only at hs
        exact jsNum_shape hs
    · simp at hs

/-- C7 witness: on a page with no nodes at all, the lookup resolves to
the `null` sentinel. -/
theorem claim_C7_witness :
    get_number_after_text pageBlank "Total Questions" = none :=
  (claim_C7 pageBlank "Total Questions").1 (by decide)

/-- C8: the rating lookup returns `null` when no node's text contains
the site name (so the site's key is omitted from `contestRankings`);
any rating it returns is a standalone 3–5 digit number; the last such
number in the container's text is taken; sites without a rating are
omitted rather than set. -/
theorem claim_C8 (page : PageModel) (site : String) :
    ((∀ n ∈ page.nodes, containsCI n.innerText.data site.data = false) →
        extract_rating page site = none)
    ∧ (∀ r : String, extract_rating page site = some r →
        3 ≤ r.length ∧ r.length ≤ 5 ∧ ∀ c ∈ r.data, c.isDigit = true)
    ∧ extract_rating pageLeetCard "LeetCode" = some "2001"
    ∧ ((extractData pageLeetCard).getKey "contestRankings").map JValue.keys
        = some ["leetcode"]
    ∧ ((extractData pageLeetNoNum).getKey "contestRankings").map JValue.keys
        = some []
    ∧ (extract_rating page "LeetCode" = none →
        jLookup (contestRankingsOf page) "leetcode" = none) := by
  refine ⟨?_, ?_, by decide, by decide, by decide, ?_⟩
  · intro h
    unfold extract_rating extract_rating_body
    have hf : findByText page.nodes site = none := by
      unfold findByText
      rw [List.find?_eq_none]
      intro n hn
      simp [h n hn]
    rcases hg : page.ratingFail site with _ | m
    · simp [hg, hf]
    · simp [hg]
  · intro r hr
    unfold extract_rating extract_rating_body at hr
    rcases hg : page.ratingFail site with _ | m <;> rw [hg] at hr
    · rcases hf : findByText page.nodes site with _ | el <;> rw [hf] at hr
      · simp at hr
      · simp only at hr
        unfold jsLastRating at hr
        obtain ⟨run, hlast, rfl⟩ := Option.map_eq_some'.mp hr
        have hmem := allStandalone35_mem (mem_of_getLast_opt hlast)
        exact ⟨hmem.1, hmem.2.1, hmem.2.2⟩
    · simp at hr
  · intro hnone
    unfold contestRankingsOf
    rw [hnone]
    rcases pyTruthy (extract_rating page "CodeChef") with _ | r <;>
      simp [pyTruthy, jLookup]

/-- C8 witness: a page with no nodes yields no CodeChef rating. -/
theorem claim_C8_witness : extract_rating pageBlank "CodeChef" = none :=
  (claim_C8 pageBlank "CodeChef").1 (by decide)

/-- Every load outcome navigates to the profile URL of the username the
scraper was given. -/
theorem scrape_navigates (username : String) (load : LoadResult) (page : PageModel) :
    Event.navigate (profileUrl username) ∈ (scrape_codolio username load page).1 := by
  cases load <;> try simp [scrape_codolio]
  case ok => rcases hp : page.extractFail with _ | m <;> simp [scrape_codolio, hp]

/-- C10: with surrounding whitespace in a non-empty username, both
routes navigate to the profile URL built from the trimmed username but
echo the original, untrimmed username in the success envelope — so the
echoed username differs from the one in the URL. -/
theorem claim_C10 (u : String) (load : LoadResult) (page : PageModel)
    (h1 : usernameEmpty u = false)
    (h2 : String.mk (pyStrip u.data) ≠ u) :
    (Event.navigate (profileUrl (String.mk (pyStrip u.data)))
        ∈ (get_codolio_profile u load page).1)
    ∧ (∀ env : Envelope, (get_codolio_profile u load page).2 = Except.ok env →
        env.username = u ∧ env.username ≠ String.mk (pyStrip u.data))
    ∧ (Event.navigate (profileUrl (String.mk (pyStrip u.data)))
        ∈ (post_codolio_profile u load page).1)
    ∧ (∀ env : Envelope, (post_codolio_profile u load page).2 = Except.ok env →
        env.username = u ∧ env.username ≠ String.mk (pyStrip u.data)) := by
  have hnav := scrape_navigates (String.mk (pyStrip u.data)) load page
  have hcond : ¬(usernameEmpty u = true) := by simp [h1]
  unfold get_codolio_profile post_codolio_profile
  rw [if_neg hcond]
  rcases hs : scrape_codolio (String.mk (pyStrip u.data)) load page with ⟨ev, r⟩
  rw [hs] at hnav
  cases r with
  | error e =>
    refine ⟨hnav, ?_, hnav, ?_⟩ <;> · intro env henv; simp at henv
  | ok d =>
    refine ⟨hnav, ?_, hnav, ?_⟩ <;>
      · intro env henv
        simp only [Except.ok.injEq] at henv
        subst henv
        exact ⟨rfl, Ne.symm h2⟩

/-- C10 witness: the username `" bob "` navigates to the URL built from
the trimmed `"bob"`. -/
theorem claim_C10_witness :
    Event.navigate (profileUrl (String.mk (pyStrip " bob ".data)))
      ∈ (get_codolio_profile " bob " LoadResult.ok pageBlank).1 :=
  (claim_C10 " bob " LoadResult.ok pageBlank (by decide) (by decide)).1

end Codolio
